import Mathlib

/-!
SES template manager: the template differ, the push operation and the watch loop

A shallow embedding of `main.go`.  Go slices are lists (the `nil` slice is `[]`,
ranging over it does nothing), Go pointers that may be `nil` are `Option`s, and
every interaction with the outside world (console, file system, the SES client,
the watcher, the error reporter) is appended to a log of `Effect`s.  The answers
of the outside world come from an `Env`, each answer being a function of the log
written so far, so that successive calls may be answered differently.
-/

namespace SESTemplateManager

/-! ## Data model -/

/-- The `Template` struct of `main.go`. -/
structure Template where
  TemplateName : String
  SubjectPart : String
  TextPart : String
  HtmlPartFilePath : String
  deriving DecidableEq, Repr

/-- The `Config` struct of `main.go`; its zero value has every field empty. -/
structure Config where
  AWSRegion : String
  AWSKey : String
  AWSSecret : String
  Templates : List Template
  SentryDsn : String
  deriving DecidableEq, Repr

/-- The zero value `var cfg Config`. -/
def Config.zero : Config := ⟨"", "", "", [], ""⟩

/-! ## The differ -/

/-- `findTemplate`: the first template of the slice that bears the name, `nil` when there is none. -/
def findTemplate : List Template → String → Option Template
  | [], _ => none
  | template :: rest, name =>
    if template.TemplateName = name then some template else findTemplate rest name

/-- `compareTemplates`: false when either pointer is `nil`, else equality of subject,
text part and HTML file path (the name is not compared). -/
def compareTemplates : Option Template → Option Template → Bool
  | some template1, some template2 =>
    decide (template1.SubjectPart = template2.SubjectPart) &&
    decide (template1.TextPart = template2.TextPart) &&
    decide (template1.HtmlPartFilePath = template2.HtmlPartFilePath)
  | _, _ => false

/-- The key set of the map `oldTemplateNames` built by the first loop of `updateTemplates`. -/
def oldTemplateNames (oldTemplates : List Template) : List String :=
  oldTemplates.map (fun oldTemplate => oldTemplate.TemplateName)

/-- One iteration of the second loop of `updateTemplates`, over an arbitrary push
operation `push` acting on a state `σ`. -/
def updateTemplatesStep {σ : Type} (push : Template → σ → σ) (oldTemplates : List Template)
    (s : σ) (newTemplate : Template) : σ :=
  if ¬ (newTemplate.TemplateName ∈ oldTemplateNames oldTemplates) then
    push newTemplate s
  else
    if !(compareTemplates (findTemplate oldTemplates newTemplate.TemplateName) (some newTemplate)) then
      push newTemplate s
    else
      s

/-- `updateTemplates`, over an arbitrary push operation (in `main.go` the push
operation is `updateTemplate svc`). -/
def updateTemplates {σ : Type} (push : Template → σ → σ) (oldTemplates newTemplates : List Template)
    (s : σ) : σ :=
  newTemplates.foldl (updateTemplatesStep push oldTemplates) s

/-- The push operation that only records the template it is invoked on. -/
def recordPush (template : Template) (pushed : List Template) : List Template :=
  pushed ++ [template]

/-- The sequence of templates on which `updateTemplates` invokes the push operation. -/
def reconcile (oldTemplates newTemplates : List Template) : List Template :=
  updateTemplates recordPush oldTemplates newTemplates []

/-- Whether `updateTemplates` pushes `newTemplate`: the test made by one iteration of its loop. -/
def needsPush (oldTemplates : List Template) (newTemplate : Template) : Bool :=
  if ¬ (newTemplate.TemplateName ∈ oldTemplateNames oldTemplates) then true
  else !(compareTemplates (findTemplate oldTemplates newTemplate.TemplateName) (some newTemplate))

/-! ## The outside world -/

/-- A non-nil Go `error` value: either one that implements `awserr.Error` (it then has
a code), or any other error. -/
inductive GoError where
  | aws (code : String) (message : String)
  | other (message : String)
  deriving DecidableEq, Repr

/-- The `sesv2.EmailTemplateContent` built by `updateTemplate`. -/
structure EmailTemplateContent where
  Html : String
  Subject : String
  Text : String
  deriving DecidableEq, Repr

/-- What the program does to the outside world, in the order it does it. -/
inductive Effect where
  | println (line : String)
  | readFile (path : String)
  | capture (err : GoError)
  | updateEmailTemplate (templateName : String) (content : EmailTemplateContent)
  | createEmailTemplate (templateName : String) (content : EmailTemplateContent)
  | sleep (milliseconds : Nat)
  | watcherAdd (path : String)
  | watcherRemove (path : String)
  deriving DecidableEq, Repr

/-- The answers of the outside world.  `readFile` is `os.ReadFile`, `unmarshal` is
`json.Unmarshal` into a zero `Config` (the value left in the variable and the error),
`updateEmailTemplate` and `createEmailTemplate` are the SES client calls (`none` is the
`nil` error) and `errCodeNotFoundException` is the constant
`sesv2.ErrCodeNotFoundException`.  The first argument of a call is the log up to the call. -/
structure Env where
  readFile : List Effect → String → Except GoError String
  unmarshal : String → Config × Option GoError
  updateEmailTemplate : List Effect → String → EmailTemplateContent → Option GoError
  createEmailTemplate : List Effect → String → EmailTemplateContent → Option GoError
  errCodeNotFoundException : String

/-- `capture` of `sentry.go`: nothing and `false` on a `nil` error, else the error is
reported (to the reporter and the console) and the answer is `true`. -/
def capture (err : Option GoError) (log : List Effect) : Bool × List Effect :=
  match err with
  | none => (false, log)
  | some e => (true, log ++ [Effect.capture e])

/-- `readConfig`: the configuration and the error it returns, and the log. -/
def readConfig (env : Env) (cfgPath : String) (log : List Effect) :
    (Config × Option GoError) × List Effect :=
  let cfg := Config.zero
  match env.readFile log cfgPath with
  | Except.error e =>
    ((cfg, some e), (capture (some e) (log ++ [Effect.readFile cfgPath])).2)
  | Except.ok bytes =>
    let decoded := env.unmarshal bytes
    match capture decoded.2 (log ++ [Effect.readFile cfgPath]) with
    | (true, log2) => ((decoded.1, decoded.2), log2)
    | (false, log2) => ((decoded.1, none), log2)

/-- `readTemplateHTML`: the string and the error it returns, and the log. -/
def readTemplateHTML (env : Env) (filePath : String) (log : List Effect) :
    (String × Option GoError) × List Effect :=
  match env.readFile log filePath with
  | Except.error e => (("", some e), (capture (some e) (log ++ [Effect.readFile filePath])).2)
  | Except.ok bytes => ((bytes, none), log ++ [Effect.readFile filePath])

/-- The branch of `updateTemplate` taken once `UpdateEmailTemplate` has answered `err`. -/
def afterUpdate (env : Env) (templateName : String) (content : EmailTemplateContent)
    (err : Option GoError) (log : List Effect) : List Effect :=
  match err with
  | none => log
  | some (GoError.aws code message) =>
    if code = env.errCodeNotFoundException then
      (capture (env.createEmailTemplate log templateName content)
        (log ++ [Effect.createEmailTemplate templateName content])).2
    else
      (capture (some (GoError.aws code message)) log).2
  | some (GoError.other message) => (capture (some (GoError.other message)) log).2

/-- `updateTemplate`: the push of one template; it returns nothing, the result is the log. -/
def updateTemplate (env : Env) (template : Template) (log : List Effect) : List Effect :=
  let log1 := log ++ [Effect.println ("Updating template: " ++ template.TemplateName)]
  match readTemplateHTML env template.HtmlPartFilePath log1 with
  | ((htmlPart, err), log2) =>
    match capture err log2 with
    | (true, log3) => log3
    | (false, log3) =>
      let content : EmailTemplateContent :=
        { Html := htmlPart, Subject := template.SubjectPart, Text := template.TextPart }
      afterUpdate env template.TemplateName content
        (env.updateEmailTemplate log3 template.TemplateName content)
        (log3 ++ [Effect.updateEmailTemplate template.TemplateName content])

/-! ## The watcher and the event loop -/

/-- `w.Add`: the watcher as a set of paths, adding always succeeds. -/
def watcherAdd (watched : List String) (path : String) : List String :=
  if path ∈ watched then watched else watched ++ [path]

/-- `w.Remove`: the watcher as a set of paths, removing always succeeds. -/
def watcherRemove (watched : List String) (path : String) : List String :=
  watched.filter (fun p => decide (p ≠ path))

/-- The loop `for _, template := range templates { w.Add(template.HtmlPartFilePath) }`. -/
def addTemplateFiles (templates : List Template) (watched : List String) (log : List Effect) :
    List String × List Effect :=
  templates.foldl (fun (acc : List String × List Effect) template =>
    (watcherAdd acc.1 template.HtmlPartFilePath,
      acc.2 ++ [Effect.watcherAdd template.HtmlPartFilePath])) (watched, log)

/-- The loop `for _, template := range templates { w.Remove(template.HtmlPartFilePath) }`. -/
def removeTemplateFiles (templates : List Template) (watched : List String) (log : List Effect) :
    List String × List Effect :=
  templates.foldl (fun (acc : List String × List Effect) template =>
    (watcherRemove acc.1 template.HtmlPartFilePath,
      acc.2 ++ [Effect.watcherRemove template.HtmlPartFilePath])) (watched, log)

/-- The variables the goroutine of `main` works on: the global configuration, the
template set kept for diffing, the paths registered with the watcher, and the log. -/
structure LoopState where
  config : Config
  oldTemplates : List Template
  watched : List String
  log : List Effect
  deriving DecidableEq, Repr

/-- Lines 143 to 155 of `main`, from the configuration read at startup: the template
files and the config path are registered, every template is pushed, and the goroutine
starts with `oldTemplates := config.Templates`. -/
def initialState (env : Env) (cfgPath : String) (config : Config) (log : List Effect) : LoopState :=
  let added := addTemplateFiles config.Templates [] log
  { config := config
    oldTemplates := config.Templates
    watched := watcherAdd added.1 cfgPath
    log := updateTemplates (updateTemplate env) [] config.Templates
      (added.2 ++ [Effect.watcherAdd cfgPath]) }

/-- The state at the call of `readConfig` in the config branch: the quiet period is
over, the line is printed and the files of the current templates are unregistered. -/
def beforeReload (st : LoopState) : List String × List Effect :=
  removeTemplateFiles st.config.Templates st.watched
    (st.log ++ [Effect.sleep 100] ++ [Effect.println "Updating config"])

/-- The configuration and the error that `readConfig` returns when a change of the
config path is handled in state `st`. -/
def reloadResult (env : Env) (cfgPath : String) (st : LoopState) : Config × Option GoError :=
  (readConfig env cfgPath (beforeReload st).2).1

/-- The body of `case event := <-w.Event`, the event being given by its path. -/
def handleEvent (env : Env) (cfgPath : String) (eventPath : String) (st : LoopState) : LoopState :=
  let log1 := st.log ++ [Effect.sleep 100]
  if eventPath = cfgPath then
    let removed := removeTemplateFiles st.config.Templates st.watched
      (log1 ++ [Effect.println "Updating config"])
    match readConfig env cfgPath removed.2 with
    | ((config, err), log2) =>
      match capture err log2 with
      | (true, log3) =>
        { config := config, oldTemplates := st.oldTemplates, watched := removed.1, log := log3 }
      | (false, log3) =>
        let added := addTemplateFiles config.Templates removed.1 log3
        { config := config
          oldTemplates := config.Templates
          watched := added.1
          log := updateTemplates (updateTemplate env) st.oldTemplates config.Templates added.2 }
  else
    { st with
      log := st.config.Templates.foldl (fun log template =>
        if eventPath = template.HtmlPartFilePath then updateTemplate env template log else log)
        log1 }

/-- What the goroutine receives before the watcher is closed. -/
inductive Msg where
  | event (path : String)
  | error (err : Option GoError)
  deriving DecidableEq, Repr

/-- One turn of the `select` loop. -/
def loopStep (env : Env) (cfgPath : String) (st : LoopState) : Msg → LoopState
  | Msg.event path => handleEvent env cfgPath path st
  | Msg.error err => { st with log := (capture err st.log).2 }

/-- The loop run on the messages received, in order. -/
def runLoop (env : Env) (cfgPath : String) : List Msg → LoopState → LoopState
  | [], st => st
  | msg :: rest, st => runLoop env cfgPath rest (loopStep env cfgPath st msg)

/-- No template of the current configuration has the config path as its HTML file. -/
def configPathFree (cfgPath : String) (st : LoopState) : Bool :=
  st.config.Templates.all (fun template => decide (template.HtmlPartFilePath ≠ cfgPath))

/-- The configuration never declares the config path as a template file: in the
state and in every state the loop goes through on the messages. -/
def configPathFreeRun (env : Env) (cfgPath : String) : List Msg → LoopState → Bool
  | [], st => configPathFree cfgPath st
  | msg :: rest, st =>
    configPathFree cfgPath st && configPathFreeRun env cfgPath rest (loopStep env cfgPath st msg)

/-- Whether an effect is a wait. -/
def Effect.isSleep : Effect → Bool
  | Effect.sleep _ => true
  | _ => false

/-- The three answers of the update call that the specification distinguishes. -/
inductive UpdateResult where
  | ok
  | notFound
  | otherError
  deriving DecidableEq, Repr

/-- The answer of `UpdateEmailTemplate` as the specification classifies it: `ok` is the
`nil` error, `notFound` an AWS error whose code is `ErrCodeNotFoundException`, and
`otherError` every AWS error with another code and every non-AWS error. -/
def classify (env : Env) : Option GoError → UpdateResult
  | none => UpdateResult.ok
  | some (GoError.aws code _) =>
    if code = env.errCodeNotFoundException then UpdateResult.notFound else UpdateResult.otherError
  | some (GoError.other _) => UpdateResult.otherError

/-- The log `after` is the log `before` followed by effects none of which is a wait. -/
def ExtendsWithoutSleep (before after : List Effect) : Prop :=
  ∃ tail : List Effect, after = before ++ tail ∧ ∀ e ∈ tail, Effect.isSleep e = false

/-! ## Concrete worlds and configurations -/

/-- A world in which every file reads as `<p>hi</p>`, the decoder yields a configuration
without templates, and the store answers the update call with a not-found error and the
create call with success. -/
def notFoundEnv : Env where
  readFile := fun _ _ => Except.ok "<p>hi</p>"
  unmarshal := fun _ => (Config.zero, none)
  updateEmailTemplate := fun _ _ _ => some (GoError.aws "NotFoundException" "no such template")
  createEmailTemplate := fun _ _ _ => none
  errCodeNotFoundException := "NotFoundException"

/-- A world in which the config file `c.json` cannot be read, every other file reads as
`<p>hi</p>`, and the store accepts every call. -/
def unreadableConfigEnv : Env where
  readFile := fun _ path =>
    if path = "c.json" then Except.error (GoError.other "open c.json: no such file or directory")
    else Except.ok "<p>hi</p>"
  unmarshal := fun _ => (Config.zero, none)
  updateEmailTemplate := fun _ _ _ => none
  createEmailTemplate := fun _ _ _ => none
  errCodeNotFoundException := "NotFoundException"

/-- A world in which every file can be read, the decoder yields the configuration with
the single template `B` of file `b.html`, and the store accepts every call. -/
def reloadEnv : Env where
  readFile := fun _ _ => Except.ok "<p>hi</p>"
  unmarshal := fun _ => (⟨"", "", "", [⟨"B", "s", "t", "b.html"⟩], ""⟩, none)
  updateEmailTemplate := fun _ _ _ => none
  createEmailTemplate := fun _ _ _ => none
  errCodeNotFoundException := "NotFoundException"

/-- A world in which every file can be read, the decoder yields a configuration without
templates, and the store accepts every call. -/
def emptyReloadEnv : Env where
  readFile := fun _ _ => Except.ok "<p>hi</p>"
  unmarshal := fun _ => (Config.zero, none)
  updateEmailTemplate := fun _ _ _ => none
  createEmailTemplate := fun _ _ _ => none
  errCodeNotFoundException := "NotFoundException"

/-- The configuration with the two templates `A` of file `a.html` and `B` of file `b.html`. -/
def configAB : Config :=
  ⟨"", "", "", [⟨"A", "s", "t", "a.html"⟩, ⟨"B", "s", "t", "b.html"⟩], ""⟩

/-- The configuration with the single template `A` of file `a.html`. -/
def configA : Config := ⟨"", "", "", [⟨"A", "s", "t", "a.html"⟩], ""⟩

/-- A configuration whose single template has the config file `c.json` as its HTML file. -/
def configSelf : Config := ⟨"", "", "", [⟨"A", "s", "t", "c.json"⟩], ""⟩

/-! ## Helper lemmas on the differ -/

theorem updateTemplatesStep_eq {σ : Type} (push : Template → σ → σ) (oldTemplates : List Template)
    (s : σ) (t : Template) :
    updateTemplatesStep push oldTemplates s t = if needsPush oldTemplates t then push t s else s := by
  unfold updateTemplatesStep needsPush
  by_cases h : t.TemplateName ∈ oldTemplateNames oldTemplates
  · by_cases h2 : compareTemplates (findTemplate oldTemplates t.TemplateName) (some t) = true
    · simp [h, h2]
    · simp [h, h2]
  · simp [h]

theorem updateTemplates_eq_foldl_filter {σ : Type} (push : Template → σ → σ)
    (oldTemplates newTemplates : List Template) (s : σ) :
    updateTemplates push oldTemplates newTemplates s =
      (newTemplates.filter (needsPush oldTemplates)).foldl (fun s t => push t s) s := by
  unfold updateTemplates
  induction newTemplates generalizing s with
  | nil => rfl
  | cons t rest ih =>
    rw [List.foldl_cons, ih, updateTemplatesStep_eq, List.filter_cons]
    by_cases h : needsPush oldTemplates t = true
    · simp [h]
    · simp [h]

theorem foldl_recordPush (l acc : List Template) :
    l.foldl (fun s t => recordPush t s) acc = acc ++ l := by
  induction l generalizing acc with
  | nil => simp
  | cons t rest ih =>
    rw [List.foldl_cons, ih]
    simp [recordPush]

theorem reconcile_eq_filter (oldTemplates newTemplates : List Template) :
    reconcile oldTemplates newTemplates = newTemplates.filter (needsPush oldTemplates) := by
  unfold reconcile
  rw [updateTemplates_eq_foldl_filter, foldl_recordPush]
  simp

theorem findTemplate_some {oldTemplates : List Template} {name : String} {o : Template}
    (h : findTemplate oldTemplates name = some o) : o ∈ oldTemplates ∧ o.TemplateName = name := by
  induction oldTemplates with
  | nil => simp [findTemplate] at h
  | cons a rest ih =>
    unfold findTemplate at h
    by_cases ha : a.TemplateName = name
    · rw [if_pos ha] at h
      cases h
      exact ⟨List.mem_cons_self _ _, ha⟩
    · rw [if_neg ha] at h
      exact ⟨List.mem_cons_of_mem _ (ih h).1, (ih h).2⟩

theorem findTemplate_of_name_mem {oldTemplates : List Template} {name : String}
    (h : name ∈ oldTemplateNames oldTemplates) : ∃ o, findTemplate oldTemplates name = some o := by
  induction oldTemplates with
  | nil => simp [oldTemplateNames] at h
  | cons a rest ih =>
    unfold findTemplate
    by_cases ha : a.TemplateName = name
    · exact ⟨a, by rw [if_pos ha]⟩
    · rw [if_neg ha]
      apply ih
      simp only [oldTemplateNames, List.map_cons, List.mem_cons] at h
      rcases h with h | h
      · exact absurd h.symm ha
      · exact h

theorem findTemplate_of_mem_nodup {oldTemplates : List Template} {t : Template}
    (hnodup : (oldTemplateNames oldTemplates).Nodup) (ht : t ∈ oldTemplates) :
    findTemplate oldTemplates t.TemplateName = some t := by
  induction oldTemplates with
  | nil => simp at ht
  | cons a rest ih =>
    simp only [oldTemplateNames, List.map_cons, List.nodup_cons] at hnodup
    unfold findTemplate
    rcases List.mem_cons.1 ht with h | h
    · subst h
      simp
    · have hne : a.TemplateName ≠ t.TemplateName := by
        intro heq
        apply hnodup.1
        rw [heq]
        exact List.mem_map_of_mem _ h
      rw [if_neg hne]
      exact ih hnodup.2 h

theorem compareTemplates_some (a b : Template) :
    compareTemplates (some a) (some b) = true ↔
      a.SubjectPart = b.SubjectPart ∧ a.TextPart = b.TextPart ∧
        a.HtmlPartFilePath = b.HtmlPartFilePath := by
  simp [compareTemplates, and_assoc]

theorem name_mem_of_mem {oldTemplates : List Template} {t : Template} (ht : t ∈ oldTemplates) :
    t.TemplateName ∈ oldTemplateNames oldTemplates :=
  List.mem_map_of_mem _ ht

theorem needsPush_eq_false_iff (oldTemplates : List Template) (t : Template) :
    needsPush oldTemplates t = false ↔
      ∃ o, findTemplate oldTemplates t.TemplateName = some o ∧
        o.SubjectPart = t.SubjectPart ∧ o.TextPart = t.TextPart ∧
          o.HtmlPartFilePath = t.HtmlPartFilePath := by
  unfold needsPush
  by_cases hmem : t.TemplateName ∈ oldTemplateNames oldTemplates
  · obtain ⟨o, ho⟩ := findTemplate_of_name_mem hmem
    simp only [hmem, not_true_eq_false, if_false, ho, Bool.not_eq_false', compareTemplates_some]
    constructor
    · intro h
      exact ⟨o, rfl, h⟩
    · rintro ⟨o2, h1, h2⟩
      cases h1
      exact h2
  · simp only [hmem, not_false_eq_true, if_true]
    constructor
    · intro h
      cases h
    · rintro ⟨o, ho, _⟩
      exact absurd (name_mem_of_mem (findTemplate_some ho).1) (by rw [(findTemplate_some ho).2]; exact hmem)

theorem needsPush_of_mem_nodup {oldTemplates : List Template} {t : Template}
    (hnodup : (oldTemplateNames oldTemplates).Nodup) (ht : t ∈ oldTemplates) :
    needsPush oldTemplates t = false :=
  (needsPush_eq_false_iff oldTemplates t).2 ⟨t, findTemplate_of_mem_nodup hnodup ht, rfl, rfl, rfl⟩

theorem filter_set_singleton {α : Type} (p : α → Bool) (l : List α) (i : Nat) (x : α)
    (hl : ∀ y ∈ l, p y = false) (hx : p x = true) (hi : i < l.length) :
    (l.set i x).filter p = [x] := by
  induction l generalizing i with
  | nil => simp at hi
  | cons a rest ih =>
    cases i with
    | zero =>
      rw [List.set_cons_zero, List.filter_cons_of_pos hx]
      rw [List.filter_eq_nil_iff.2]
      intro y hy
      simp [hl y (List.mem_cons_of_mem _ hy)]
    | succ k =>
      have ha : ¬ (p a = true) := by simp [hl a (List.mem_cons_self _ _)]
      rw [List.set_cons_succ, List.filter_cons_of_neg ha]
      exact ih k (fun y hy => hl y (List.mem_cons_of_mem _ hy)) (by simpa using hi)

/-! ## The differ: claims -/

/-- C1: on the first run (`oldTemplates = nil`) `updateTemplates` invokes the push
operation on exactly the templates of the new sequence, each once and in order,
names repeated or not: `reconcile nil S = S`, and for every push operation the run is
the pushes of the templates of `S` from left to right. -/
theorem first_run_pushes_everything (S : List Template) :
    reconcile [] S = S ∧
    ∀ (σ : Type) (push : Template → σ → σ) (s : σ),
      updateTemplates push [] S s = S.foldl (fun s t => push t s) s := by
  have hfilter : S.filter (needsPush []) = S := by
    rw [List.filter_eq_self]
    intro t _
    simp [needsPush, oldTemplateNames]
  refine ⟨by rw [reconcile_eq_filter, hfilter], ?_⟩
  intro σ push s
  rw [updateTemplates_eq_foldl_filter, hfilter]

/-- C2, at a configuration with a repeated name: reconciling the sequence of two
templates named `x` with subjects `a` and `b` against itself pushes the second one,
so the result is not empty. -/
theorem reconcile_self_duplicate_name :
    reconcile [⟨"x", "a", "", ""⟩, ⟨"x", "b", "", ""⟩] [⟨"x", "a", "", ""⟩, ⟨"x", "b", "", ""⟩]
      = [⟨"x", "b", "", ""⟩] ∧
    ¬ (∀ S : List Template, reconcile S S = []) := by
  refine ⟨by decide, ?_⟩
  intro h
  exact absurd (h [⟨"x", "a", "", ""⟩, ⟨"x", "b", "", ""⟩]) (by decide)

/-- Reconciling a sequence against itself pushes nothing exactly when any two of its
templates that bear the same name have the same subject, text part and HTML file path. -/
theorem reconcile_self_eq_nil_iff (S : List Template) :
    reconcile S S = [] ↔
      ∀ t1 ∈ S, ∀ t2 ∈ S, t1.TemplateName = t2.TemplateName →
        t1.SubjectPart = t2.SubjectPart ∧ t1.TextPart = t2.TextPart ∧
          t1.HtmlPartFilePath = t2.HtmlPartFilePath := by
  rw [reconcile_eq_filter, List.filter_eq_nil_iff]
  constructor
  · intro h t1 h1 t2 h2 hname
    have e1 := h t1 h1
    have e2 := h t2 h2
    rw [Bool.not_eq_true, needsPush_eq_false_iff] at e1 e2
    obtain ⟨o1, ho1, a1, b1, c1⟩ := e1
    obtain ⟨o2, ho2, a2, b2, c2⟩ := e2
    rw [hname, ho2] at ho1
    cases ho1
    exact ⟨a1.symm.trans a2, b1.symm.trans b2, c1.symm.trans c2⟩
  · intro h t ht
    rw [Bool.not_eq_true, needsPush_eq_false_iff]
    obtain ⟨o, ho⟩ := findTemplate_of_name_mem (name_mem_of_mem ht)
    exact ⟨o, ho, h o (findTemplate_some ho).1 t ht (findTemplate_some ho).2⟩

/-- The template that `findTemplate` returns is the first one of the sequence that
bears the name. -/
theorem findTemplate_eq_some_iff (S : List Template) (name : String) (o : Template) :
    findTemplate S name = some o ↔
      ∃ pre post : List Template, S = pre ++ o :: post ∧ o.TemplateName = name ∧
        ∀ x ∈ pre, x.TemplateName ≠ name := by
  induction S with
  | nil => simp [findTemplate]
  | cons a rest ih =>
    unfold findTemplate
    by_cases ha : a.TemplateName = name
    · rw [if_pos ha]
      constructor
      · intro h
        cases h
        exact ⟨[], rest, rfl, ha, by simp⟩
      · rintro ⟨pre, post, hS, _, hpre⟩
        cases pre with
        | nil =>
          simp only [List.nil_append, List.cons.injEq] at hS
          rw [hS.1]
        | cons b pre2 =>
          simp only [List.cons_append, List.cons.injEq] at hS
          exact absurd (hS.1 ▸ ha) (hpre b (List.mem_cons_self _ _))
    · rw [if_neg ha, ih]
      constructor
      · rintro ⟨pre, post, hS, ho, hpre⟩
        refine ⟨a :: pre, post, by rw [hS]; rfl, ho, ?_⟩
        intro x hx
        rcases List.mem_cons.1 hx with h | h
        · rw [h]
          exact ha
        · exact hpre x h
      · rintro ⟨pre, post, hS, ho, hpre⟩
        cases pre with
        | nil =>
          simp only [List.nil_append, List.cons.injEq] at hS
          exact absurd (hS.1 ▸ ho) ha
        | cons b pre2 =>
          simp only [List.cons_append, List.cons.injEq] at hS
          exact ⟨pre2, post, hS.2, ho, fun x hx => hpre x (List.mem_cons_of_mem _ hx)⟩

/-- C2, amended: reconciling a sequence `S` against itself pushes, in their order in
`S`, exactly the templates of `S` that differ in subject, text part or HTML file path
from the template that `findTemplate` returns for their name, which is the first
template of `S` bearing that name; a template that agrees with the first one of its
name is not pushed.  So nothing is pushed exactly when any two templates of `S` that
bear the same name have the same subject, text part and HTML file path, and in
particular when the names of `S` are pairwise distinct. -/
theorem reconcile_self_pushes_differing_from_first (S : List Template) :
    reconcile S S =
      S.filter (fun t => decide (∃ o ∈ S, findTemplate S t.TemplateName = some o ∧
        (o.SubjectPart ≠ t.SubjectPart ∨ o.TextPart ≠ t.TextPart ∨
          o.HtmlPartFilePath ≠ t.HtmlPartFilePath))) ∧
    (∀ (σ : Type) (push : Template → σ → σ) (s : σ),
      updateTemplates push S S s = (reconcile S S).foldl (fun s t => push t s) s) ∧
    (∀ (name : String) (o : Template), findTemplate S name = some o ↔
      ∃ pre post : List Template, S = pre ++ o :: post ∧ o.TemplateName = name ∧
        ∀ x ∈ pre, x.TemplateName ≠ name) ∧
    (reconcile S S = [] ↔
      ∀ t1 ∈ S, ∀ t2 ∈ S, t1.TemplateName = t2.TemplateName →
        t1.SubjectPart = t2.SubjectPart ∧ t1.TextPart = t2.TextPart ∧
          t1.HtmlPartFilePath = t2.HtmlPartFilePath) ∧
    ((oldTemplateNames S).Nodup → reconcile S S = []) := by
  refine ⟨?_, ?_, findTemplate_eq_some_iff S, reconcile_self_eq_nil_iff S, ?_⟩
  · rw [reconcile_eq_filter]
    apply List.filter_congr
    intro t ht
    cases hp : needsPush S t with
    | false =>
      obtain ⟨o, ho, hs, htx, hh⟩ := (needsPush_eq_false_iff S t).1 hp
      symm
      rw [decide_eq_false_iff_not]
      rintro ⟨o2, _, ho2, hdiff⟩
      rw [ho] at ho2
      cases ho2
      rcases hdiff with hd | hd | hd
      · exact hd hs
      · exact hd htx
      · exact hd hh
    | true =>
      symm
      rw [decide_eq_true_iff]
      obtain ⟨o, ho⟩ := findTemplate_of_name_mem (name_mem_of_mem ht)
      refine ⟨o, (findTemplate_some ho).1, ho, ?_⟩
      by_contra hcon
      push_neg at hcon
      have hfalse := (needsPush_eq_false_iff S t).2 ⟨o, ho, hcon.1, hcon.2.1, hcon.2.2⟩
      rw [hp] at hfalse
      cases hfalse
  · intro σ push s
    rw [updateTemplates_eq_foldl_filter, reconcile_eq_filter]
  · intro hnodup
    rw [reconcile_eq_filter, List.filter_eq_nil_iff]
    intro t ht
    rw [needsPush_of_mem_nodup hnodup ht]
    simp

/-- C2, amended, at the sequence of three templates named `x` with subjects `a`, `b`
and `a`: the second differs from the first and is pushed, the third agrees with the
first and is not. -/
theorem reconcile_self_pushes_differing_from_first_witness :
    reconcile [⟨"x", "a", "", "p"⟩, ⟨"x", "b", "", "p"⟩, ⟨"x", "a", "", "p"⟩]
      [⟨"x", "a", "", "p"⟩, ⟨"x", "b", "", "p"⟩, ⟨"x", "a", "", "p"⟩] =
        [⟨"x", "b", "", "p"⟩] ∧
    findTemplate [⟨"x", "a", "", "p"⟩, ⟨"x", "b", "", "p"⟩, ⟨"x", "a", "", "p"⟩] "x" =
      some ⟨"x", "a", "", "p"⟩ :=
  ⟨((reconcile_self_pushes_differing_from_first
      [⟨"x", "a", "", "p"⟩, ⟨"x", "b", "", "p"⟩, ⟨"x", "a", "", "p"⟩]).1).trans (by decide),
    by decide⟩

/-- C3: when the names of `S` are pairwise distinct and `S'` is `S` with only the
subject of the template at index `i` changed, `updateTemplates S S'` pushes exactly
one template, the one at index `i` of `S'`. -/
theorem single_subject_edit_detected (S : List Template) (i : Nat) (hi : i < S.length)
    (subject : String) (hnodup : (oldTemplateNames S).Nodup)
    (hsubject : subject ≠ (S.get ⟨i, hi⟩).SubjectPart) :
    reconcile S (S.set i { S.get ⟨i, hi⟩ with SubjectPart := subject })
      = [{ S.get ⟨i, hi⟩ with SubjectPart := subject }] ∧
    ∀ (σ : Type) (push : Template → σ → σ) (s : σ),
      updateTemplates push S (S.set i { S.get ⟨i, hi⟩ with SubjectPart := subject }) s
        = push { S.get ⟨i, hi⟩ with SubjectPart := subject } s := by
  have hedit : needsPush S { S.get ⟨i, hi⟩ with SubjectPart := subject } = true := by
    cases hp : needsPush S { S.get ⟨i, hi⟩ with SubjectPart := subject } with
    | true => rfl
    | false =>
      rw [needsPush_eq_false_iff] at hp
      obtain ⟨o, ho, hs, _, _⟩ := hp
      have hfind := findTemplate_of_mem_nodup hnodup (List.get_mem S i hi)
      simp only at ho hs
      rw [hfind] at ho
      cases ho
      exact absurd hs.symm hsubject
  have hfilter := filter_set_singleton (needsPush S) S i _
    (fun y hy => needsPush_of_mem_nodup hnodup hy) hedit hi
  refine ⟨by rw [reconcile_eq_filter, hfilter], ?_⟩
  intro σ push s
  rw [updateTemplates_eq_foldl_filter, hfilter]
  rfl

/-- C3 at the two templates `A`, `B` with the subject of `B` edited. -/
theorem single_subject_edit_detected_witness :
    ((oldTemplateNames [⟨"A", "s", "t", "a.html"⟩, ⟨"B", "s", "t", "b.html"⟩]).Nodup ∧
      "s2" ≠ "s") ∧
    reconcile [⟨"A", "s", "t", "a.html"⟩, ⟨"B", "s", "t", "b.html"⟩]
      [⟨"A", "s", "t", "a.html"⟩, ⟨"B", "s2", "t", "b.html"⟩] = [⟨"B", "s2", "t", "b.html"⟩] :=
  ⟨by decide,
    (single_subject_edit_detected [⟨"A", "s", "t", "a.html"⟩, ⟨"B", "s", "t", "b.html"⟩] 1
      (by decide) "s2" (by decide) (by decide)).1⟩

/-- C4: when the names of the old sequence are pairwise distinct, the templates that
`updateTemplates` pushes are, in their order in the new sequence, the templates `t` of
the new sequence such that no old template has the name of `t`, or the old template
with the name of `t` differs from `t` in subject, text part or HTML file path.  So a
new template whose name is in the old sequence with equal subject, text part and path
is not pushed, every pushed template is one of the new sequence, and an old template
that is not in the new sequence is not pushed. -/
theorem differ_characterisation (oldTemplates newTemplates : List Template)
    (hnodup : (oldTemplateNames oldTemplates).Nodup) :
    reconcile oldTemplates newTemplates =
      newTemplates.filter (fun t => decide
        ((∀ o ∈ oldTemplates, o.TemplateName ≠ t.TemplateName) ∨
          ∃ o ∈ oldTemplates, o.TemplateName = t.TemplateName ∧
            (o.SubjectPart ≠ t.SubjectPart ∨ o.TextPart ≠ t.TextPart ∨
              o.HtmlPartFilePath ≠ t.HtmlPartFilePath))) ∧
    (∀ (σ : Type) (push : Template → σ → σ) (s : σ),
      updateTemplates push oldTemplates newTemplates s =
        (reconcile oldTemplates newTemplates).foldl (fun s t => push t s) s) ∧
    (∀ t ∈ newTemplates, ∀ o ∈ oldTemplates, o.TemplateName = t.TemplateName →
      o.SubjectPart = t.SubjectPart → o.TextPart = t.TextPart →
      o.HtmlPartFilePath = t.HtmlPartFilePath → t ∉ reconcile oldTemplates newTemplates) ∧
    (∀ t ∈ reconcile oldTemplates newTemplates, t ∈ newTemplates) ∧
    (∀ o ∈ oldTemplates, o ∉ newTemplates → o ∉ reconcile oldTemplates newTemplates) := by
  have hkey : ∀ t : Template, needsPush oldTemplates t = false ↔
      ∃ o ∈ oldTemplates, o.TemplateName = t.TemplateName ∧ o.SubjectPart = t.SubjectPart ∧
        o.TextPart = t.TextPart ∧ o.HtmlPartFilePath = t.HtmlPartFilePath := by
    intro t
    rw [needsPush_eq_false_iff]
    constructor
    · rintro ⟨o, ho, h⟩
      exact ⟨o, (findTemplate_some ho).1, (findTemplate_some ho).2, h⟩
    · rintro ⟨o, ho, hname, h⟩
      refine ⟨o, ?_, h⟩
      rw [← hname]
      exact findTemplate_of_mem_nodup hnodup ho
  have hunique : ∀ o1 ∈ oldTemplates, ∀ o2 ∈ oldTemplates,
      o1.TemplateName = o2.TemplateName → o1 = o2 := by
    intro o1 h1 o2 h2 hname
    have e1 := findTemplate_of_mem_nodup hnodup h1
    have e2 := findTemplate_of_mem_nodup hnodup h2
    rw [hname, e2] at e1
    cases e1
    rfl
  have hfilter : reconcile oldTemplates newTemplates =
      newTemplates.filter (fun t => decide
        ((∀ o ∈ oldTemplates, o.TemplateName ≠ t.TemplateName) ∨
          ∃ o ∈ oldTemplates, o.TemplateName = t.TemplateName ∧
            (o.SubjectPart ≠ t.SubjectPart ∨ o.TextPart ≠ t.TextPart ∨
              o.HtmlPartFilePath ≠ t.HtmlPartFilePath))) := by
    rw [reconcile_eq_filter]
    apply List.filter_congr
    intro t _
    cases hp : needsPush oldTemplates t with
    | false =>
      obtain ⟨o, ho, hname, hs, ht, hh⟩ := (hkey t).1 hp
      symm
      rw [decide_eq_false_iff_not]
      rintro (hnone | ⟨o2, ho2, hname2, hdiff⟩)
      · exact hnone o ho hname
      · have := hunique o2 ho2 o ho (hname2.trans hname.symm)
        subst this
        rcases hdiff with hd | hd | hd
        · exact hd hs
        · exact hd ht
        · exact hd hh
    | true =>
      symm
      rw [decide_eq_true_iff]
      by_cases hex : ∃ o ∈ oldTemplates, o.TemplateName = t.TemplateName
      · obtain ⟨o, ho, hname⟩ := hex
        right
        refine ⟨o, ho, hname, ?_⟩
        by_contra hcon
        push_neg at hcon
        have hfalse := (hkey t).2 ⟨o, ho, hname, hcon.1, hcon.2.1, hcon.2.2⟩
        rw [hp] at hfalse
        cases hfalse
      · left
        intro o ho hname
        exact hex ⟨o, ho, hname⟩
  refine ⟨hfilter, ?_, ?_, ?_, ?_⟩
  · intro σ push s
    rw [updateTemplates_eq_foldl_filter, reconcile_eq_filter]
  · intro t _ o ho hname hs ht hh hmem
    rw [reconcile_eq_filter, List.mem_filter] at hmem
    have hfalse := (hkey t).2 ⟨o, ho, hname, hs, ht, hh⟩
    rw [hmem.2] at hfalse
    cases hfalse
  · intro t ht
    rw [reconcile_eq_filter] at ht
    exact (List.mem_filter.1 ht).1
  · intro o _ hnot hmem
    rw [reconcile_eq_filter] at hmem
    exact hnot (List.mem_filter.1 hmem).1

/-- C4 at an old sequence `A`, `B` and a new sequence with `A` unchanged, `B` with a
new text part, a new name `C`, and `C` a second time. -/
theorem differ_characterisation_witness :
    (oldTemplateNames [⟨"A", "s", "t", "a.html"⟩, ⟨"B", "s", "t", "b.html"⟩]).Nodup ∧
    reconcile [⟨"A", "s", "t", "a.html"⟩, ⟨"B", "s", "t", "b.html"⟩]
      [⟨"A", "s", "t", "a.html"⟩, ⟨"B", "s", "u", "b.html"⟩, ⟨"C", "s", "t", "c.html"⟩,
        ⟨"C", "s", "t", "c.html"⟩] =
      [⟨"B", "s", "u", "b.html"⟩, ⟨"C", "s", "t", "c.html"⟩, ⟨"C", "s", "t", "c.html"⟩] :=
  ⟨by decide,
    ((differ_characterisation [⟨"A", "s", "t", "a.html"⟩, ⟨"B", "s", "t", "b.html"⟩]
      [⟨"A", "s", "t", "a.html"⟩, ⟨"B", "s", "u", "b.html"⟩, ⟨"C", "s", "t", "c.html"⟩,
        ⟨"C", "s", "t", "c.html"⟩] (by decide)).1).trans (by decide)⟩

/-- C9: when the names of the old sequence are pairwise distinct and the new sequence
is the old one with templates deleted (the others unchanged and in the same order),
`updateTemplates` pushes nothing; with `old = [A, B]` and `new = [A]` the result is
empty and `B` is not pushed. -/
theorem removal_pushes_nothing (oldTemplates newTemplates : List Template)
    (hnodup : (oldTemplateNames oldTemplates).Nodup)
    (hsub : List.Sublist newTemplates oldTemplates) :
    reconcile oldTemplates newTemplates = [] ∧
    (∀ (σ : Type) (push : Template → σ → σ) (s : σ),
      updateTemplates push oldTemplates newTemplates s = s) ∧
    (∀ (A B : Template), A.TemplateName ≠ B.TemplateName →
      reconcile [A, B] [A] = [] ∧ B ∉ reconcile [A, B] [A]) := by
  have hfilter : newTemplates.filter (needsPush oldTemplates) = [] := by
    rw [List.filter_eq_nil_iff]
    intro t ht
    rw [needsPush_of_mem_nodup hnodup (hsub.subset ht)]
    simp
  refine ⟨by rw [reconcile_eq_filter, hfilter], ?_, ?_⟩
  · intro σ push s
    rw [updateTemplates_eq_foldl_filter, hfilter]
    rfl
  · intro A B hAB
    have hnil : reconcile [A, B] [A] = [] := by
      rw [reconcile_eq_filter, List.filter_eq_nil_iff]
      intro t ht
      rw [needsPush_of_mem_nodup (by simp [oldTemplateNames, hAB]) (by simp at ht; simp [ht])]
      simp
    exact ⟨hnil, by rw [hnil]; simp⟩

/-- C9 at `old = [A, B, C]`, `new = [A, C]`. -/
theorem removal_pushes_nothing_witness :
    ((oldTemplateNames
        [⟨"A", "s", "t", "a.html"⟩, ⟨"B", "s", "t", "b.html"⟩, ⟨"C", "s", "t", "c.html"⟩]).Nodup ∧
      List.Sublist [(⟨"A", "s", "t", "a.html"⟩ : Template), ⟨"C", "s", "t", "c.html"⟩]
        [⟨"A", "s", "t", "a.html"⟩, ⟨"B", "s", "t", "b.html"⟩, ⟨"C", "s", "t", "c.html"⟩]) ∧
    reconcile [⟨"A", "s", "t", "a.html"⟩, ⟨"B", "s", "t", "b.html"⟩, ⟨"C", "s", "t", "c.html"⟩]
      [⟨"A", "s", "t", "a.html"⟩, ⟨"C", "s", "t", "c.html"⟩] = [] :=
  ⟨⟨by decide, List.Sublist.cons₂ _ (List.Sublist.cons _ (List.Sublist.refl _))⟩,
    (removal_pushes_nothing
      [⟨"A", "s", "t", "a.html"⟩, ⟨"B", "s", "t", "b.html"⟩, ⟨"C", "s", "t", "c.html"⟩]
      [⟨"A", "s", "t", "a.html"⟩, ⟨"C", "s", "t", "c.html"⟩] (by decide)
      (List.Sublist.cons₂ _ (List.Sublist.cons _ (List.Sublist.refl _)))).1⟩

/-! ## The push operation -/

theorem capture_snd (err : Option GoError) (log : List Effect) :
    (capture err log).2 = log ++ (capture err []).2 := by
  cases err <;> simp [capture]

theorem updateTemplate_of_read_ok (env : Env) (template : Template) (log : List Effect)
    (html : String)
    (hread : env.readFile (log ++ [Effect.println ("Updating template: " ++ template.TemplateName)])
      template.HtmlPartFilePath = Except.ok html) :
    updateTemplate env template log =
      afterUpdate env template.TemplateName ⟨html, template.SubjectPart, template.TextPart⟩
        (env.updateEmailTemplate
          (log ++ [Effect.println ("Updating template: " ++ template.TemplateName)] ++
            [Effect.readFile template.HtmlPartFilePath])
          template.TemplateName ⟨html, template.SubjectPart, template.TextPart⟩)
        (log ++ [Effect.println ("Updating template: " ++ template.TemplateName)] ++
          [Effect.readFile template.HtmlPartFilePath] ++
          [Effect.updateEmailTemplate template.TemplateName
            ⟨html, template.SubjectPart, template.TextPart⟩]) := by
  simp only [updateTemplate, readTemplateHTML, hread, capture]

theorem afterUpdate_tail (env : Env) (templateName : String) (content : EmailTemplateContent)
    (answer : Option GoError) (called : List Effect) :
    ∃ tail : List Effect,
      afterUpdate env templateName content answer called = called ++ tail ∧
      (classify env answer = UpdateResult.ok → tail = []) ∧
      (classify env answer = UpdateResult.notFound →
        tail = Effect.createEmailTemplate templateName content ::
          (capture (env.createEmailTemplate called templateName content) []).2) ∧
      (classify env answer = UpdateResult.otherError →
        ∃ e, answer = some e ∧ tail = [Effect.capture e]) := by
  cases answer with
  | none =>
    refine ⟨[], ?_⟩
    simp [afterUpdate, classify]
  | some e =>
    cases e with
    | aws code message =>
      by_cases hcode : code = env.errCodeNotFoundException
      · refine ⟨Effect.createEmailTemplate templateName content ::
          (capture (env.createEmailTemplate called templateName content) []).2, ?_, ?_, ?_, ?_⟩
        · simp only [afterUpdate, if_pos hcode]
          rw [capture_snd, List.append_assoc, List.singleton_append]
        · simp [classify, hcode]
        · intro _
          rfl
        · simp [classify, hcode]
      · refine ⟨[Effect.capture (GoError.aws code message)], ?_⟩
        simp [afterUpdate, classify, hcode, capture]
    | other message =>
      refine ⟨[Effect.capture (GoError.other message)], ?_⟩
      simp [afterUpdate, classify, capture]

/-- C5: for a template whose HTML file is readable, `updateTemplate` prints its line,
reads the file and calls `UpdateEmailTemplate` once with the name of the template and
the content made of the HTML read, the subject and the text part.  When the answer is
`ok` it does nothing more; when the answer is `notFound` it calls `CreateEmailTemplate`
once with the same name and content and reports the error of that call, if any; when
the answer is any other error it reports that error and does not call
`CreateEmailTemplate`.  In every case it returns: the function is total and its result
is the log so extended. -/
theorem push_create_or_update (env : Env) (template : Template) (log : List Effect)
    (html : String)
    (hread : env.readFile (log ++ [Effect.println ("Updating template: " ++ template.TemplateName)])
      template.HtmlPartFilePath = Except.ok html) :
    ∃ (called : List Effect) (answer : Option GoError),
      called = log ++ [Effect.println ("Updating template: " ++ template.TemplateName),
        Effect.readFile template.HtmlPartFilePath,
        Effect.updateEmailTemplate template.TemplateName
          ⟨html, template.SubjectPart, template.TextPart⟩] ∧
      answer = env.updateEmailTemplate
        (log ++ [Effect.println ("Updating template: " ++ template.TemplateName),
          Effect.readFile template.HtmlPartFilePath])
        template.TemplateName ⟨html, template.SubjectPart, template.TextPart⟩ ∧
      ∃ tail : List Effect,
        updateTemplate env template log = called ++ tail ∧
        (classify env answer = UpdateResult.ok → tail = []) ∧
        (classify env answer = UpdateResult.notFound →
          tail = Effect.createEmailTemplate template.TemplateName
              ⟨html, template.SubjectPart, template.TextPart⟩ ::
            (capture (env.createEmailTemplate called template.TemplateName
              ⟨html, template.SubjectPart, template.TextPart⟩) []).2) ∧
        (classify env answer = UpdateResult.otherError →
          ∃ e, answer = some e ∧ tail = [Effect.capture e]) := by
  have hrun := updateTemplate_of_read_ok env template log html hread
  simp only [List.append_assoc, List.cons_append, List.nil_append] at hrun
  rw [hrun]
  exact ⟨_, _, rfl, rfl, afterUpdate_tail env _ _ _ _⟩

/-- C5 at the template `A` in a world whose store answers the update call with a
not-found error: the file is readable and the push is the line, the read, the update
call and the create call with the same name and content. -/
theorem push_create_or_update_witness :
    notFoundEnv.readFile ([] ++ [Effect.println ("Updating template: " ++ "A")]) "a.html" =
      Except.ok "<p>hi</p>" ∧
    updateTemplate notFoundEnv ⟨"A", "s", "t", "a.html"⟩ [] =
      [Effect.println "Updating template: A", Effect.readFile "a.html",
        Effect.updateEmailTemplate "A" ⟨"<p>hi</p>", "s", "t"⟩,
        Effect.createEmailTemplate "A" ⟨"<p>hi</p>", "s", "t"⟩] := by
  refine ⟨rfl, ?_⟩
  obtain ⟨called, answer, hc, ha, tail, hrun, _, hnf, _⟩ :=
    push_create_or_update notFoundEnv ⟨"A", "s", "t", "a.html"⟩ [] "<p>hi</p>" rfl
  subst hc ha
  rw [hrun, hnf (by decide)]
  decide

/-! ## The watcher and the event loop: helper lemmas -/

theorem mem_watcherAdd (watched : List String) (path p : String) :
    p ∈ watcherAdd watched path ↔ p ∈ watched ∨ p = path := by
  unfold watcherAdd
  by_cases h : path ∈ watched
  · rw [if_pos h]
    constructor
    · intro hp
      exact Or.inl hp
    · rintro (hp | hp)
      · exact hp
      · rw [hp]
        exact h
  · rw [if_neg h]
    simp

theorem mem_watcherRemove (watched : List String) (path p : String) :
    p ∈ watcherRemove watched path ↔ p ∈ watched ∧ p ≠ path := by
  simp [watcherRemove]

theorem mem_addTemplateFiles (templates : List Template) (watched : List String)
    (log : List Effect) (p : String) :
    p ∈ (addTemplateFiles templates watched log).1 ↔
      p ∈ watched ∨ ∃ t ∈ templates, t.HtmlPartFilePath = p := by
  unfold addTemplateFiles
  induction templates generalizing watched log with
  | nil => simp
  | cons a rest ih =>
    rw [List.foldl_cons, ih, mem_watcherAdd]
    constructor
    · rintro ((h | h) | ⟨t, ht, h⟩)
      · exact Or.inl h
      · exact Or.inr ⟨a, List.mem_cons_self _ _, h.symm⟩
      · exact Or.inr ⟨t, List.mem_cons_of_mem _ ht, h⟩
    · rintro (h | ⟨t, ht, h⟩)
      · exact Or.inl (Or.inl h)
      · rcases List.mem_cons.1 ht with hta | htr
        · subst hta
          exact Or.inl (Or.inr h.symm)
        · exact Or.inr ⟨t, htr, h⟩

theorem mem_removeTemplateFiles (templates : List Template) (watched : List String)
    (log : List Effect) (p : String) :
    p ∈ (removeTemplateFiles templates watched log).1 ↔
      p ∈ watched ∧ ∀ t ∈ templates, t.HtmlPartFilePath ≠ p := by
  unfold removeTemplateFiles
  induction templates generalizing watched log with
  | nil => simp
  | cons a rest ih =>
    rw [List.foldl_cons, ih, mem_watcherRemove]
    constructor
    · rintro ⟨⟨hw, hne⟩, hrest⟩
      refine ⟨hw, ?_⟩
      intro t ht
      rcases List.mem_cons.1 ht with hta | htr
      · subst hta
        exact fun h => hne h.symm
      · exact hrest t htr
    · rintro ⟨hw, hall⟩
      exact ⟨⟨hw, fun h => hall a (List.mem_cons_self _ _) h.symm⟩,
        fun t ht => hall t (List.mem_cons_of_mem _ ht)⟩

theorem handleEvent_reload_failed (env : Env) (cfgPath : String) (st : LoopState) (e : GoError)
    (hfail : (reloadResult env cfgPath st).2 = some e) :
    (handleEvent env cfgPath cfgPath st).config = (reloadResult env cfgPath st).1 ∧
    (handleEvent env cfgPath cfgPath st).oldTemplates = st.oldTemplates ∧
    (handleEvent env cfgPath cfgPath st).watched = (beforeReload st).1 := by
  unfold reloadResult beforeReload at hfail
  unfold handleEvent reloadResult beforeReload
  simp only [if_true]
  generalize readConfig env cfgPath _ = r at hfail ⊢
  obtain ⟨⟨config, err⟩, log2⟩ := r
  simp only at hfail
  subst hfail
  simp [capture]

theorem handleEvent_reload_ok (env : Env) (cfgPath : String) (st : LoopState)
    (hok : (reloadResult env cfgPath st).2 = none) :
    (handleEvent env cfgPath cfgPath st).config = (reloadResult env cfgPath st).1 ∧
    (handleEvent env cfgPath cfgPath st).oldTemplates = (reloadResult env cfgPath st).1.Templates ∧
    ∀ p, p ∈ (handleEvent env cfgPath cfgPath st).watched ↔
      (p ∈ st.watched ∧ ∀ t ∈ st.config.Templates, t.HtmlPartFilePath ≠ p) ∨
        ∃ t ∈ (reloadResult env cfgPath st).1.Templates, t.HtmlPartFilePath = p := by
  unfold reloadResult beforeReload at hok
  unfold handleEvent reloadResult beforeReload
  simp only [if_true]
  generalize readConfig env cfgPath _ = r at hok ⊢
  obtain ⟨⟨config, err⟩, log2⟩ := r
  simp only at hok
  subst hok
  simp only [capture, true_and]
  intro p
  rw [mem_addTemplateFiles, mem_removeTemplateFiles]

theorem handleEvent_other_path (env : Env) (cfgPath eventPath : String) (st : LoopState)
    (hne : eventPath ≠ cfgPath) :
    handleEvent env cfgPath eventPath st =
      { st with
        log := st.config.Templates.foldl (fun log template =>
          if eventPath = template.HtmlPartFilePath then updateTemplate env template log else log)
          (st.log ++ [Effect.sleep 100]) } := by
  unfold handleEvent
  simp only [if_neg hne]

/-- Every registered path is the config path or the HTML file of a current template. -/
theorem registered_subset_step (env : Env) (cfgPath : String) (st : LoopState) (msg : Msg)
    (hinv : ∀ p ∈ st.watched, p = cfgPath ∨ ∃ t ∈ st.config.Templates, t.HtmlPartFilePath = p) :
    ∀ p ∈ (loopStep env cfgPath st msg).watched,
      p = cfgPath ∨ ∃ t ∈ (loopStep env cfgPath st msg).config.Templates,
        t.HtmlPartFilePath = p := by
  cases msg with
  | error err => exact hinv
  | event path =>
    simp only [loopStep]
    by_cases hpath : path = cfgPath
    · subst hpath
      cases hres : (reloadResult env path st).2 with
      | some e =>
        obtain ⟨_, _, hw⟩ := handleEvent_reload_failed env path st e hres
        intro p hp
        rw [hw, beforeReload, mem_removeTemplateFiles] at hp
        rcases hinv p hp.1 with h | ⟨t, ht, h⟩
        · exact Or.inl h
        · exact absurd h (hp.2 t ht)
      | none =>
        obtain ⟨hc, _, hw⟩ := handleEvent_reload_ok env path st hres
        intro p hp
        rw [hc]
        rcases (hw p).1 hp with ⟨hpw, hnot⟩ | h
        · rcases hinv p hpw with h | ⟨t, ht, h⟩
          · exact Or.inl h
          · exact absurd h (hnot t ht)
        · exact Or.inr h
    · rw [handleEvent_other_path env cfgPath path st hpath]
      exact hinv

theorem registered_subset_initialState (env : Env) (cfgPath : String) (config : Config)
    (log : List Effect) :
    ∀ p, p ∈ (initialState env cfgPath config log).watched ↔
      p = cfgPath ∨ ∃ t ∈ (initialState env cfgPath config log).config.Templates,
        t.HtmlPartFilePath = p := by
  intro p
  simp only [initialState]
  rw [mem_watcherAdd, mem_addTemplateFiles]
  simp only [List.not_mem_nil, false_or]
  exact Or.comm

theorem registered_subset_runLoop (env : Env) (cfgPath : String) (msgs : List Msg)
    (st : LoopState)
    (hinv : ∀ p ∈ st.watched, p = cfgPath ∨ ∃ t ∈ st.config.Templates, t.HtmlPartFilePath = p) :
    ∀ p ∈ (runLoop env cfgPath msgs st).watched,
      p = cfgPath ∨ ∃ t ∈ (runLoop env cfgPath msgs st).config.Templates,
        t.HtmlPartFilePath = p := by
  induction msgs generalizing st with
  | nil => exact hinv
  | cons msg rest ih =>
    exact ih (loopStep env cfgPath st msg) (registered_subset_step env cfgPath st msg hinv)

theorem configPathFree_iff (cfgPath : String) (st : LoopState) :
    configPathFree cfgPath st = true ↔ ∀ t ∈ st.config.Templates, t.HtmlPartFilePath ≠ cfgPath := by
  simp [configPathFree]

/-- The config path stays registered over a step taken from a state whose templates do
not have the config path as their HTML file. -/
theorem config_registered_step (env : Env) (cfgPath : String) (st : LoopState) (msg : Msg)
    (hfree : configPathFree cfgPath st = true) (hreg : cfgPath ∈ st.watched) :
    cfgPath ∈ (loopStep env cfgPath st msg).watched := by
  rw [configPathFree_iff] at hfree
  cases msg with
  | error err => exact hreg
  | event path =>
    simp only [loopStep]
    by_cases hpath : path = cfgPath
    · subst hpath
      cases hres : (reloadResult env path st).2 with
      | some e =>
        obtain ⟨_, _, hw⟩ := handleEvent_reload_failed env path st e hres
        rw [hw, beforeReload, mem_removeTemplateFiles]
        exact ⟨hreg, hfree⟩
      | none =>
        obtain ⟨_, _, hw⟩ := handleEvent_reload_ok env path st hres
        exact (hw path).2 (Or.inl ⟨hreg, hfree⟩)
    · rw [handleEvent_other_path env cfgPath path st hpath]
      exact hreg

theorem config_registered_runLoop (env : Env) (cfgPath : String) (msgs : List Msg)
    (st : LoopState) (hfree : configPathFreeRun env cfgPath msgs st = true)
    (hreg : cfgPath ∈ st.watched) :
    cfgPath ∈ (runLoop env cfgPath msgs st).watched ∧
      configPathFree cfgPath (runLoop env cfgPath msgs st) = true := by
  induction msgs generalizing st with
  | nil => exact ⟨hreg, hfree⟩
  | cons msg rest ih =>
    simp only [configPathFreeRun, Bool.and_eq_true] at hfree
    exact ih (loopStep env cfgPath st msg) hfree.2
      (config_registered_step env cfgPath st msg hfree.1 hreg)

/-! ## The watcher and the event loop: claims -/

/-- C7, at a configuration whose template has the config file as its HTML file: the
config path `c.json` is registered at initialization, the reload succeeds, and after
it no path at all is registered, so the config path is not. -/
theorem config_path_unregistered_after_reload :
    (initialState emptyReloadEnv "c.json" configSelf []).watched = ["c.json"] ∧
    (reloadResult emptyReloadEnv "c.json"
      (initialState emptyReloadEnv "c.json" configSelf [])).2 = none ∧
    (handleEvent emptyReloadEnv "c.json" "c.json"
      (initialState emptyReloadEnv "c.json" configSelf [])).watched = [] ∧
    "c.json" ∉ (handleEvent emptyReloadEnv "c.json" "c.json"
      (initialState emptyReloadEnv "c.json" configSelf [])).watched := by
  decide

/-- C7, amended: in the state reached from initialization through any messages,
immediately after a successful reload the HTML file of every template of the newly
loaded set is registered, and every registered path is the config path or the HTML
file of a template of the newly loaded set (no path of a superseded set remains).
When moreover no configuration held so far declares the config path as the HTML file
of a template, the config path is still registered, so that the registered paths are
exactly the config path and the HTML files of the new templates. -/
theorem watch_registry_after_reload (env : Env) (cfgPath : String) (config : Config)
    (log : List Effect) (msgs : List Msg)
    (hok : (reloadResult env cfgPath
      (runLoop env cfgPath msgs (initialState env cfgPath config log))).2 = none) :
    (handleEvent env cfgPath cfgPath
        (runLoop env cfgPath msgs (initialState env cfgPath config log))).config =
      (reloadResult env cfgPath
        (runLoop env cfgPath msgs (initialState env cfgPath config log))).1 ∧
    (∀ t ∈ (reloadResult env cfgPath
        (runLoop env cfgPath msgs (initialState env cfgPath config log))).1.Templates,
      t.HtmlPartFilePath ∈ (handleEvent env cfgPath cfgPath
        (runLoop env cfgPath msgs (initialState env cfgPath config log))).watched) ∧
    (∀ p ∈ (handleEvent env cfgPath cfgPath
        (runLoop env cfgPath msgs (initialState env cfgPath config log))).watched,
      p = cfgPath ∨ ∃ t ∈ (reloadResult env cfgPath
        (runLoop env cfgPath msgs (initialState env cfgPath config log))).1.Templates,
          t.HtmlPartFilePath = p) ∧
    (configPathFreeRun env cfgPath msgs (initialState env cfgPath config log) = true →
      ∀ p, p ∈ (handleEvent env cfgPath cfgPath
          (runLoop env cfgPath msgs (initialState env cfgPath config log))).watched ↔
        p = cfgPath ∨ ∃ t ∈ (reloadResult env cfgPath
          (runLoop env cfgPath msgs (initialState env cfgPath config log))).1.Templates,
            t.HtmlPartFilePath = p) := by
  have hinit := registered_subset_initialState env cfgPath config log
  have hinv := registered_subset_runLoop env cfgPath msgs (initialState env cfgPath config log)
    (fun p hp => (hinit p).1 hp)
  have hreg : configPathFreeRun env cfgPath msgs (initialState env cfgPath config log) = true →
      cfgPath ∈ (runLoop env cfgPath msgs (initialState env cfgPath config log)).watched ∧
        configPathFree cfgPath
          (runLoop env cfgPath msgs (initialState env cfgPath config log)) = true :=
    fun h => config_registered_runLoop env cfgPath msgs _ h ((hinit cfgPath).2 (Or.inl rfl))
  generalize runLoop env cfgPath msgs (initialState env cfgPath config log) = st
    at hok hinv hreg ⊢
  obtain ⟨hc, _, hw⟩ := handleEvent_reload_ok env cfgPath st hok
  have hsub : ∀ p ∈ (handleEvent env cfgPath cfgPath st).watched,
      p = cfgPath ∨ ∃ t ∈ (reloadResult env cfgPath st).1.Templates,
        t.HtmlPartFilePath = p := by
    intro p hp
    rcases (hw p).1 hp with ⟨hpw, hnot⟩ | h
    · rcases hinv p hpw with h | ⟨t, ht, h⟩
      · exact Or.inl h
      · exact absurd h (hnot t ht)
    · exact Or.inr h
  refine ⟨hc, fun t ht => (hw _).2 (Or.inr ⟨t, ht, rfl⟩), hsub, ?_⟩
  intro hfree p
  obtain ⟨hcfg, hclean⟩ := hreg hfree
  rw [configPathFree_iff] at hclean
  constructor
  · exact hsub p
  · rintro (h | h)
    · rw [h]
      exact (hw cfgPath).2 (Or.inl ⟨hcfg, hclean⟩)
    · exact (hw p).2 (Or.inr h)

/-- C7, amended, at the configuration `A`, `B` reloaded into the configuration `B` after
a change of `a.html` and a watcher error: the reload succeeds, no configuration holds
the config path as a template file, and `c.json` and `b.html` are registered. -/
theorem watch_registry_after_reload_witness :
    (reloadResult reloadEnv "c.json"
      (runLoop reloadEnv "c.json" [Msg.event "a.html", Msg.error none]
        (initialState reloadEnv "c.json" configAB []))).2 = none ∧
    configPathFreeRun reloadEnv "c.json" [Msg.event "a.html", Msg.error none]
      (initialState reloadEnv "c.json" configAB []) = true ∧
    (handleEvent reloadEnv "c.json" "c.json"
      (runLoop reloadEnv "c.json" [Msg.event "a.html", Msg.error none]
        (initialState reloadEnv "c.json" configAB []))).watched = ["c.json", "b.html"] ∧
    ∀ p, p ∈ (handleEvent reloadEnv "c.json" "c.json"
        (runLoop reloadEnv "c.json" [Msg.event "a.html", Msg.error none]
          (initialState reloadEnv "c.json" configAB []))).watched ↔
      p = "c.json" ∨ ∃ t ∈ (reloadResult reloadEnv "c.json"
        (runLoop reloadEnv "c.json" [Msg.event "a.html", Msg.error none]
          (initialState reloadEnv "c.json" configAB []))).1.Templates,
            t.HtmlPartFilePath = p :=
  ⟨by decide, by decide, by decide,
    (watch_registry_after_reload reloadEnv "c.json" configAB []
      [Msg.event "a.html", Msg.error none] (by decide)).2.2.2 (by decide)⟩


/-- C6, at a configuration with the template `A` of file `a.html` whose config file
`c.json` cannot be read when its change is handled: before the event the current
template set is `A` and `a.html` and `c.json` are registered; after it the current
template set is empty (the variable holds the zero configuration that `readConfig`
returned) and `a.html` is no longer registered, only the template set kept for diffing
is unchanged; a later change of `a.html` then pushes nothing. -/
theorem failed_reload_drops_templates_and_watches :
    (reloadResult unreadableConfigEnv "c.json"
      (initialState unreadableConfigEnv "c.json" configA [])).2 =
        some (GoError.other "open c.json: no such file or directory") ∧
    (initialState unreadableConfigEnv "c.json" configA []).config.Templates =
      [⟨"A", "s", "t", "a.html"⟩] ∧
    (initialState unreadableConfigEnv "c.json" configA []).watched = ["a.html", "c.json"] ∧
    (handleEvent unreadableConfigEnv "c.json" "c.json"
      (initialState unreadableConfigEnv "c.json" configA [])).config.Templates = [] ∧
    (handleEvent unreadableConfigEnv "c.json" "c.json"
      (initialState unreadableConfigEnv "c.json" configA [])).watched = ["c.json"] ∧
    (handleEvent unreadableConfigEnv "c.json" "c.json"
      (initialState unreadableConfigEnv "c.json" configA [])).oldTemplates =
        [⟨"A", "s", "t", "a.html"⟩] ∧
    (handleEvent unreadableConfigEnv "c.json" "a.html"
      (handleEvent unreadableConfigEnv "c.json" "c.json"
        (initialState unreadableConfigEnv "c.json" configA []))).log =
      (handleEvent unreadableConfigEnv "c.json" "c.json"
        (initialState unreadableConfigEnv "c.json" configA [])).log ++ [Effect.sleep 100] := by
  decide

theorem foldl_event_no_match (env : Env) (eventPath : String) (templates : List Template)
    (log : List Effect) (hno : ∀ t ∈ templates, t.HtmlPartFilePath ≠ eventPath) :
    templates.foldl (fun log template =>
      if eventPath = template.HtmlPartFilePath then updateTemplate env template log else log)
      log = log := by
  induction templates generalizing log with
  | nil => rfl
  | cons a rest ih =>
    rw [List.foldl_cons,
      if_neg (fun h => hno a (List.mem_cons_self _ _) h.symm)]
    exact ih log (fun t ht => hno t (List.mem_cons_of_mem _ ht))

theorem foldl_event_single_match (env : Env) (T : Template) (templates : List Template)
    (log : List Effect)
    (hnodup : (templates.map (fun t => t.HtmlPartFilePath)).Nodup) (hT : T ∈ templates) :
    templates.foldl (fun log template =>
      if T.HtmlPartFilePath = template.HtmlPartFilePath then updateTemplate env template log
      else log) log = updateTemplate env T log := by
  induction templates generalizing log with
  | nil => simp at hT
  | cons a rest ih =>
    simp only [List.map_cons, List.nodup_cons] at hnodup
    rw [List.foldl_cons]
    rcases List.mem_cons.1 hT with h | h
    · subst h
      rw [if_pos rfl]
      apply foldl_event_no_match
      intro t ht hpath
      apply hnodup.1
      rw [← hpath]
      exact List.mem_map_of_mem (fun t => t.HtmlPartFilePath) ht
    · have hne : ¬ (T.HtmlPartFilePath = a.HtmlPartFilePath) := by
        intro hpath
        apply hnodup.1
        rw [← hpath]
        exact List.mem_map_of_mem (fun t => t.HtmlPartFilePath) h
      rw [if_neg hne]
      exact ih log hnodup.2 h

/-- C8: when the HTML files of the current templates are pairwise distinct and none is
the config path, handling a change of the HTML file of a current template `T` waits
and then pushes `T` once and no other template, by a direct call of `updateTemplate`,
and leaves the configuration, the template set kept for diffing and the registered
paths as they were; handling a change of a path that is neither the config path nor
the HTML file of a current template pushes nothing and leaves them as they were. -/
theorem single_template_fast_path (env : Env) (cfgPath : String) (st : LoopState)
    (hnodup : (st.config.Templates.map (fun t => t.HtmlPartFilePath)).Nodup)
    (hcfg : ∀ t ∈ st.config.Templates, t.HtmlPartFilePath ≠ cfgPath) :
    (∀ T ∈ st.config.Templates,
      handleEvent env cfgPath T.HtmlPartFilePath st =
        { config := st.config, oldTemplates := st.oldTemplates, watched := st.watched,
          log := updateTemplate env T (st.log ++ [Effect.sleep 100]) }) ∧
    (∀ path : String, path ≠ cfgPath →
      (∀ t ∈ st.config.Templates, t.HtmlPartFilePath ≠ path) →
      handleEvent env cfgPath path st =
        { config := st.config, oldTemplates := st.oldTemplates, watched := st.watched,
          log := st.log ++ [Effect.sleep 100] }) := by
  constructor
  · intro T hT
    rw [handleEvent_other_path env cfgPath _ st (hcfg T hT),
      foldl_event_single_match env T _ _ hnodup hT]
  · intro path hpath hno
    rw [handleEvent_other_path env cfgPath _ st hpath,
      foldl_event_no_match env path _ _ hno]

/-- C8 at the configuration `A` of `a.html`, `B` of `b.html` and a change of `a.html`:
the effects of the handling are the wait and the push of `A`. -/
theorem single_template_fast_path_witness :
    ((configAB.Templates.map (fun t => t.HtmlPartFilePath)).Nodup ∧
      ∀ t ∈ configAB.Templates, t.HtmlPartFilePath ≠ "c.json") ∧
    handleEvent emptyReloadEnv "c.json" "a.html" ⟨configAB, configAB.Templates, ["c.json"], []⟩ =
      { config := configAB, oldTemplates := configAB.Templates, watched := ["c.json"],
        log := updateTemplate emptyReloadEnv ⟨"A", "s", "t", "a.html"⟩ [Effect.sleep 100] } :=
  ⟨by decide,
    (single_template_fast_path emptyReloadEnv "c.json" ⟨configAB, configAB.Templates, ["c.json"], []⟩
      (by decide) (by decide)).1 ⟨"A", "s", "t", "a.html"⟩ (by decide)⟩

/-! ## The quiet period -/

theorem ExtendsWithoutSleep.refl (log : List Effect) : ExtendsWithoutSleep log log :=
  ⟨[], by simp, by simp⟩

theorem ExtendsWithoutSleep.trans {a b c : List Effect} (hab : ExtendsWithoutSleep a b)
    (hbc : ExtendsWithoutSleep b c) : ExtendsWithoutSleep a c := by
  obtain ⟨t1, h1, n1⟩ := hab
  obtain ⟨t2, h2, n2⟩ := hbc
  refine ⟨t1 ++ t2, by rw [h2, h1, List.append_assoc], ?_⟩
  intro e he
  rcases List.mem_append.1 he with h | h
  · exact n1 e h
  · exact n2 e h

theorem ExtendsWithoutSleep.snoc (log : List Effect) (e : Effect) (he : Effect.isSleep e = false) :
    ExtendsWithoutSleep log (log ++ [e]) :=
  ⟨[e], rfl, by simpa using he⟩

theorem capture_extends (err : Option GoError) (log : List Effect) :
    ExtendsWithoutSleep log (capture err log).2 := by
  cases err with
  | none => exact ExtendsWithoutSleep.refl log
  | some e => exact ExtendsWithoutSleep.snoc log _ rfl

theorem readConfig_extends (env : Env) (cfgPath : String) (log : List Effect) :
    ExtendsWithoutSleep log (readConfig env cfgPath log).2 := by
  have hread : ExtendsWithoutSleep log (log ++ [Effect.readFile cfgPath]) :=
    ExtendsWithoutSleep.snoc log _ rfl
  unfold readConfig
  cases env.readFile log cfgPath with
  | error e => exact hread.trans (capture_extends _ _)
  | ok bytes =>
    simp only
    cases (env.unmarshal bytes).2 with
    | none => exact hread
    | some e => exact hread.trans (ExtendsWithoutSleep.snoc _ (Effect.capture e) rfl)

theorem readTemplateHTML_extends (env : Env) (filePath : String) (log : List Effect) :
    ExtendsWithoutSleep log (readTemplateHTML env filePath log).2 := by
  have hread : ExtendsWithoutSleep log (log ++ [Effect.readFile filePath]) :=
    ExtendsWithoutSleep.snoc log _ rfl
  unfold readTemplateHTML
  cases env.readFile log filePath with
  | error e => exact hread.trans (capture_extends _ _)
  | ok bytes => exact hread

theorem afterUpdate_extends (env : Env) (templateName : String) (content : EmailTemplateContent)
    (err : Option GoError) (log : List Effect) :
    ExtendsWithoutSleep log (afterUpdate env templateName content err log) := by
  cases err with
  | none => exact ExtendsWithoutSleep.refl log
  | some e =>
    cases e with
    | aws code message =>
      by_cases hcode : code = env.errCodeNotFoundException
      · simp only [afterUpdate, if_pos hcode]
        exact (ExtendsWithoutSleep.snoc log (Effect.createEmailTemplate templateName content)
          rfl).trans (capture_extends _ _)
      · simp only [afterUpdate, if_neg hcode]
        exact capture_extends _ _
    | other message => exact capture_extends _ _

theorem updateTemplate_extends (env : Env) (template : Template) (log : List Effect) :
    ExtendsWithoutSleep log (updateTemplate env template log) := by
  have hprint : ExtendsWithoutSleep log
      (log ++ [Effect.println ("Updating template: " ++ template.TemplateName)]) :=
    ExtendsWithoutSleep.snoc log _ rfl
  have hread := readTemplateHTML_extends env template.HtmlPartFilePath
    (log ++ [Effect.println ("Updating template: " ++ template.TemplateName)])
  unfold updateTemplate
  simp only
  generalize readTemplateHTML env template.HtmlPartFilePath _ = r at hread ⊢
  obtain ⟨⟨htmlPart, err⟩, log2⟩ := r
  cases err with
  | some e =>
    simp only [capture]
    exact (hprint.trans hread).trans (ExtendsWithoutSleep.snoc _ (Effect.capture e) rfl)
  | none =>
    simp only [capture]
    exact ((hprint.trans hread).trans (ExtendsWithoutSleep.snoc _
      (Effect.updateEmailTemplate template.TemplateName
        ⟨htmlPart, template.SubjectPart, template.TextPart⟩) rfl)).trans
      (afterUpdate_extends env _ _ _ _)

theorem foldl_extends {α : Type} (f : List Effect → α → List Effect)
    (hf : ∀ log a, ExtendsWithoutSleep log (f log a)) (l : List α) (log : List Effect) :
    ExtendsWithoutSleep log (l.foldl f log) := by
  induction l generalizing log with
  | nil => exact ExtendsWithoutSleep.refl log
  | cons a rest ih => exact (hf log a).trans (ih (f log a))

theorem updateTemplates_extends (env : Env) (oldTemplates newTemplates : List Template)
    (log : List Effect) :
    ExtendsWithoutSleep log
      (updateTemplates (updateTemplate env) oldTemplates newTemplates log) := by
  rw [updateTemplates_eq_foldl_filter]
  exact foldl_extends _ (fun log t => updateTemplate_extends env t log) _ log

theorem addTemplateFiles_extends (templates : List Template) (watched : List String)
    (log : List Effect) :
    ExtendsWithoutSleep log (addTemplateFiles templates watched log).2 := by
  unfold addTemplateFiles
  induction templates generalizing watched log with
  | nil => exact ExtendsWithoutSleep.refl log
  | cons a rest ih =>
    rw [List.foldl_cons]
    exact (ExtendsWithoutSleep.snoc log (Effect.watcherAdd a.HtmlPartFilePath) rfl).trans
      (ih _ _)

theorem removeTemplateFiles_extends (templates : List Template) (watched : List String)
    (log : List Effect) :
    ExtendsWithoutSleep log (removeTemplateFiles templates watched log).2 := by
  unfold removeTemplateFiles
  induction templates generalizing watched log with
  | nil => exact ExtendsWithoutSleep.refl log
  | cons a rest ih =>
    rw [List.foldl_cons]
    exact (ExtendsWithoutSleep.snoc log (Effect.watcherRemove a.HtmlPartFilePath) rfl).trans
      (ih _ _)

theorem handleEvent_extends (env : Env) (cfgPath eventPath : String) (st : LoopState) :
    ExtendsWithoutSleep (st.log ++ [Effect.sleep 100])
      (handleEvent env cfgPath eventPath st).log := by
  by_cases hpath : eventPath = cfgPath
  · have hprint : ExtendsWithoutSleep (st.log ++ [Effect.sleep 100])
        (st.log ++ [Effect.sleep 100] ++ [Effect.println "Updating config"]) :=
      ExtendsWithoutSleep.snoc _ _ rfl
    have hremoved := removeTemplateFiles_extends st.config.Templates st.watched
      (st.log ++ [Effect.sleep 100] ++ [Effect.println "Updating config"])
    have hread := readConfig_extends env cfgPath
      (removeTemplateFiles st.config.Templates st.watched
        (st.log ++ [Effect.sleep 100] ++ [Effect.println "Updating config"])).2
    unfold handleEvent
    simp only [if_pos hpath]
    generalize readConfig env cfgPath _ = r at hread ⊢
    obtain ⟨⟨config, err⟩, log2⟩ := r
    have hbase := (hprint.trans hremoved).trans hread
    cases err with
    | some e =>
      simp only [capture]
      exact hbase.trans (ExtendsWithoutSleep.snoc _ (Effect.capture e) rfl)
    | none =>
      simp only [capture]
      exact (hbase.trans (addTemplateFiles_extends _ _ _)).trans
        (updateTemplates_extends env _ _ _)
  · rw [handleEvent_other_path env cfgPath eventPath st hpath]
    apply foldl_extends
    intro log t
    by_cases h : eventPath = t.HtmlPartFilePath
    · rw [if_pos h]
      exact updateTemplate_extends env t log
    · rw [if_neg h]
      exact ExtendsWithoutSleep.refl log

/-- C10, at the configuration `A` of `a.html`, `B` of `b.html` with config path `c.json`
and a change of `a.html`, which is a template file and not the config path: the first
effect of the handling is the wait of 100 ms, and the push of `A` comes after it. -/
theorem template_event_waits_first :
    (handleEvent emptyReloadEnv "c.json" "a.html" ⟨configAB, configAB.Templates,
        ["a.html", "b.html", "c.json"], []⟩).log =
      [Effect.sleep 100, Effect.println "Updating template: A", Effect.readFile "a.html",
        Effect.updateEmailTemplate "A" ⟨"<p>hi</p>", "s", "t"⟩] ∧
    (handleEvent emptyReloadEnv "c.json" "a.html" ⟨configAB, configAB.Templates,
        ["a.html", "b.html", "c.json"], []⟩).log ≠
      updateTemplate emptyReloadEnv ⟨"A", "s", "t", "a.html"⟩ [] := by
  decide

theorem addTemplateFiles_snd (templates : List Template) (watched : List String)
    (log : List Effect) :
    (addTemplateFiles templates watched log).2 =
      log ++ templates.map (fun t => Effect.watcherAdd t.HtmlPartFilePath) := by
  unfold addTemplateFiles
  induction templates generalizing watched log with
  | nil => simp
  | cons a rest ih =>
    rw [List.foldl_cons, ih]
    simp

theorem removeTemplateFiles_snd (templates : List Template) (watched : List String)
    (log : List Effect) :
    (removeTemplateFiles templates watched log).2 =
      log ++ templates.map (fun t => Effect.watcherRemove t.HtmlPartFilePath) := by
  unfold removeTemplateFiles
  induction templates generalizing watched log with
  | nil => simp
  | cons a rest ih =>
    rw [List.foldl_cons, ih]
    simp

theorem readConfig_snd (env : Env) (cfgPath : String) (log : List Effect) :
    (readConfig env cfgPath log).2 =
      log ++ Effect.readFile cfgPath :: (capture (readConfig env cfgPath log).1.2 []).2 := by
  unfold readConfig
  cases env.readFile log cfgPath with
  | error e => simp [capture]
  | ok bytes =>
    simp only
    cases (env.unmarshal bytes).2 with
    | none => simp [capture]
    | some e => simp [capture]

theorem foldl_event_eq_filter (env : Env) (eventPath : String) (templates : List Template)
    (log : List Effect) :
    templates.foldl (fun log template =>
      if eventPath = template.HtmlPartFilePath then updateTemplate env template log else log)
      log =
    (templates.filter (fun t => decide (eventPath = t.HtmlPartFilePath))).foldl
      (fun log t => updateTemplate env t log) log := by
  induction templates generalizing log with
  | nil => rfl
  | cons a rest ih =>
    rw [List.foldl_cons, ih, List.filter_cons]
    by_cases h : eventPath = a.HtmlPartFilePath
    · simp [h]
    · simp [h]

theorem updateTemplate_starts (env : Env) (template : Template) (log : List Effect) :
    ∃ tail : List Effect, updateTemplate env template log =
      log ++ Effect.println ("Updating template: " ++ template.TemplateName) ::
        Effect.readFile template.HtmlPartFilePath :: tail := by
  unfold updateTemplate readTemplateHTML
  simp only
  cases env.readFile (log ++ [Effect.println ("Updating template: " ++ template.TemplateName)])
      template.HtmlPartFilePath with
  | error e =>
    exact ⟨[Effect.capture e, Effect.capture e], by simp [capture]⟩
  | ok bytes =>
    simp only [capture]
    obtain ⟨tail, htail, _⟩ := afterUpdate_tail env template.TemplateName
      ⟨bytes, template.SubjectPart, template.TextPart⟩
      (env.updateEmailTemplate
        (log ++ [Effect.println ("Updating template: " ++ template.TemplateName)] ++
          [Effect.readFile template.HtmlPartFilePath])
        template.TemplateName ⟨bytes, template.SubjectPart, template.TextPart⟩)
      (log ++ [Effect.println ("Updating template: " ++ template.TemplateName)] ++
        [Effect.readFile template.HtmlPartFilePath] ++
        [Effect.updateEmailTemplate template.TemplateName
          ⟨bytes, template.SubjectPart, template.TextPart⟩])
    rw [htail]
    exact ⟨Effect.updateEmailTemplate template.TemplateName
      ⟨bytes, template.SubjectPart, template.TextPart⟩ :: tail, by simp⟩

theorem handleEvent_config_log (env : Env) (cfgPath : String) (st : LoopState) :
    (∀ e, (reloadResult env cfgPath st).2 = some e →
      (handleEvent env cfgPath cfgPath st).log =
        st.log ++ [Effect.sleep 100, Effect.println "Updating config"] ++
          st.config.Templates.map (fun t => Effect.watcherRemove t.HtmlPartFilePath) ++
          [Effect.readFile cfgPath, Effect.capture e, Effect.capture e]) ∧
    ((reloadResult env cfgPath st).2 = none →
      (handleEvent env cfgPath cfgPath st).log =
        (reconcile st.oldTemplates (reloadResult env cfgPath st).1.Templates).foldl
          (fun log t => updateTemplate env t log)
          (st.log ++ [Effect.sleep 100, Effect.println "Updating config"] ++
            st.config.Templates.map (fun t => Effect.watcherRemove t.HtmlPartFilePath) ++
            [Effect.readFile cfgPath] ++
            (reloadResult env cfgPath st).1.Templates.map
              (fun t => Effect.watcherAdd t.HtmlPartFilePath))) := by
  have hsnd := readConfig_snd env cfgPath (beforeReload st).2
  have hpre : (beforeReload st).2 =
      st.log ++ [Effect.sleep 100, Effect.println "Updating config"] ++
        st.config.Templates.map (fun t => Effect.watcherRemove t.HtmlPartFilePath) := by
    unfold beforeReload
    rw [removeTemplateFiles_snd]
    simp
  have hrun : handleEvent env cfgPath cfgPath st =
      match readConfig env cfgPath (beforeReload st).2 with
      | ((config, err), log2) =>
        match capture err log2 with
        | (true, log3) =>
          { config := config, oldTemplates := st.oldTemplates,
            watched := (beforeReload st).1, log := log3 }
        | (false, log3) =>
          { config := config
            oldTemplates := config.Templates
            watched := (addTemplateFiles config.Templates (beforeReload st).1 log3).1
            log := updateTemplates (updateTemplate env) st.oldTemplates config.Templates
              (addTemplateFiles config.Templates (beforeReload st).1 log3).2 } := by
    unfold handleEvent beforeReload
    simp only [if_true]
  rw [hrun]
  unfold reloadResult
  rw [hpre] at hsnd ⊢
  generalize readConfig env cfgPath _ = r at hsnd ⊢
  obtain ⟨⟨config, err⟩, log2⟩ := r
  simp only at hsnd
  subst hsnd
  constructor
  · intro e he
    simp only at he
    subst he
    simp [capture]
  · intro hnone
    simp only at hnone
    subst hnone
    simp only [capture]
    rw [addTemplateFiles_snd, updateTemplates_eq_foldl_filter, reconcile_eq_filter]

/-- C10, amended: the wait of 100 ms is the first effect of the handling of every
change event, whatever its path, and it is the only wait.  For a path that is not the
config path the wait is followed by the pushes (`updateTemplate`) of the current
templates whose HTML file is the path, in their order, and by nothing else; each push
starts with its console line and the read of the HTML file.  For the config path the
wait is followed by the line `Updating config`, the removal of the HTML file of each
current template from the watcher and the read of the config file; then, when the
reload fails, by the two reports of the error, and when it succeeds, by the
registration of the HTML file of each new template and the pushes of the templates
that `updateTemplates` selects from the kept and the new template set. -/
theorem quiet_period_precedes_every_event (env : Env) (cfgPath eventPath : String)
    (st : LoopState) :
    (∃ rest : List Effect,
      (handleEvent env cfgPath eventPath st).log = st.log ++ Effect.sleep 100 :: rest ∧
      ∀ e ∈ rest, Effect.isSleep e = false) ∧
    (eventPath ≠ cfgPath →
      (handleEvent env cfgPath eventPath st).log =
        (st.config.Templates.filter (fun t => decide (eventPath = t.HtmlPartFilePath))).foldl
          (fun log t => updateTemplate env t log) (st.log ++ [Effect.sleep 100])) ∧
    (eventPath = cfgPath →
      (∀ e, (reloadResult env cfgPath st).2 = some e →
        (handleEvent env cfgPath eventPath st).log =
          st.log ++ [Effect.sleep 100, Effect.println "Updating config"] ++
            st.config.Templates.map (fun t => Effect.watcherRemove t.HtmlPartFilePath) ++
            [Effect.readFile cfgPath, Effect.capture e, Effect.capture e]) ∧
      ((reloadResult env cfgPath st).2 = none →
        (handleEvent env cfgPath eventPath st).log =
          (reconcile st.oldTemplates (reloadResult env cfgPath st).1.Templates).foldl
            (fun log t => updateTemplate env t log)
            (st.log ++ [Effect.sleep 100, Effect.println "Updating config"] ++
              st.config.Templates.map (fun t => Effect.watcherRemove t.HtmlPartFilePath) ++
              [Effect.readFile cfgPath] ++
              (reloadResult env cfgPath st).1.Templates.map
                (fun t => Effect.watcherAdd t.HtmlPartFilePath)))) ∧
    (∀ (t : Template) (log : List Effect), ∃ tail : List Effect,
      updateTemplate env t log =
        log ++ Effect.println ("Updating template: " ++ t.TemplateName) ::
          Effect.readFile t.HtmlPartFilePath :: tail) := by
  refine ⟨?_, ?_, ?_, updateTemplate_starts env⟩
  · obtain ⟨tail, htail, hno⟩ := handleEvent_extends env cfgPath eventPath st
    exact ⟨tail, by rw [htail, List.append_assoc, List.singleton_append], hno⟩
  · intro hne
    rw [handleEvent_other_path env cfgPath eventPath st hne, foldl_event_eq_filter]
  · intro heq
    subst heq
    exact handleEvent_config_log env eventPath st

/-- C10, amended, at the configuration `A` of `a.html`, `B` of `b.html`: a change of
`a.html` gives the wait and then the push of `A`; a change of the config path `c.json`
whose reload yields the configuration `B` gives the wait, the line, the two removals,
the read and the registration of `b.html`, and no push since `B` is unchanged. -/
theorem quiet_period_precedes_every_event_witness :
    ("a.html" ≠ "c.json" ∧
      (reloadResult reloadEnv "c.json" ⟨configAB, configAB.Templates,
        ["a.html", "b.html", "c.json"], []⟩).2 = none) ∧
    (handleEvent reloadEnv "c.json" "a.html" ⟨configAB, configAB.Templates,
        ["a.html", "b.html", "c.json"], []⟩).log =
      [Effect.sleep 100, Effect.println "Updating template: A", Effect.readFile "a.html",
        Effect.updateEmailTemplate "A" ⟨"<p>hi</p>", "s", "t"⟩] ∧
    (handleEvent reloadEnv "c.json" "c.json" ⟨configAB, configAB.Templates,
        ["a.html", "b.html", "c.json"], []⟩).log =
      [Effect.sleep 100, Effect.println "Updating config", Effect.watcherRemove "a.html",
        Effect.watcherRemove "b.html", Effect.readFile "c.json",
        Effect.watcherAdd "b.html"] :=
  ⟨by decide,
    ((quiet_period_precedes_every_event reloadEnv "c.json" "a.html" ⟨configAB,
      configAB.Templates, ["a.html", "b.html", "c.json"], []⟩).2.1 (by decide)).trans
      (by decide),
    (((quiet_period_precedes_every_event reloadEnv "c.json" "c.json" ⟨configAB,
      configAB.Templates, ["a.html", "b.html", "c.json"], []⟩).2.2.1 rfl).2
      (by decide)).trans (by decide)⟩

end SESTemplateManager
